import Mathlib

/-!
Verification of the annual-report discovery / extraction / consolidation
pipeline (`backend/src/services` of the equity-report repository).

The TypeScript sources are shallowly embedded: each JS/TS function that a
claim refers to is translated into an executable Lean definition of the
same name.  JS strings become `String`, `String.prototype.includes` becomes
an explicit substring test, the `\b(20[0-9]{2})\b` regular expression
becomes an explicit left-to-right token scanner, JS objects keyed by year
strings become functions `Nat → Option _` (the year keys `"2014".."2024"`
are in bijection with the numeric years), and `Array.prototype.sort`
(stable since ES2019) becomes a stable insertion sort.
-/

namespace EquityReport

/-! ## JS string primitives -/

/-- ASCII lower-casing of one character (the keyword tests in the sources
only involve ASCII data). -/
def lowerChar (c : Char) : Char :=
  if 'A' ≤ c ∧ c ≤ 'Z' then Char.ofNat (c.toNat + 32) else c

/-- Model of `String.prototype.toLowerCase()` on the ASCII fragment. -/
def lowerStr (s : String) : String :=
  ⟨s.data.map lowerChar⟩

/-- Substring test on character lists: `charsContain hay needle` is true iff
`needle` occurs contiguously inside `hay` (the semantics of
`hay.includes(needle)` in JS). -/
def charsContain : List Char → List Char → Bool
  | _, [] => true
  | [], _ :: _ => false
  | h :: t, n :: ns => ((n :: ns).isPrefixOf (h :: t)) || charsContain t (n :: ns)

/-- Model of `hay.includes(needle)`. -/
def jsIncludes (hay needle : String) : Bool :=
  charsContain hay.data needle.data

/-- Model of `hay.endsWith(suffix)`. -/
def jsEndsWith (hay suffix : String) : Bool :=
  suffix.data.isSuffixOf hay.data

/-- Model of `hay.startsWith(pre)`. -/
def jsStartsWith (hay pre : String) : Bool :=
  pre.data.isPrefixOf hay.data

/-! ## The `\b(20[0-9]{2})\b` year-token scanner

`extractYear` (downloader.ts:566), `extractYearFromFilename`
(parser.ts) and several scraping filters all use the regular expression
`\b(20[0-9]{2})\b`.  `\b` is a word boundary with `\w = [A-Za-z0-9_]`.
We model the regex engine directly: scan left to right; at each position a
match requires a word boundary, the characters `2`, `0`, two digits, and a
word boundary after. -/

/-- JS `\w` character class. -/
def isWordChar (c : Char) : Bool :=
  c.isAlphanum || c = '_'

/-- Word boundary before the current position, given the previous character
(`none` at the very start of the string). -/
def boundaryBefore : Option Char → Bool
  | none => true
  | some p => !isWordChar p

/-- Word boundary after a candidate token, given the rest of the string. -/
def boundaryAfter : List Char → Bool
  | [] => true
  | r :: _ => !isWordChar r

/-- Numeric value of a decimal digit character. -/
def digitVal (c : Char) : Nat :=
  c.toNat - '0'.toNat

/-- All matches of `\b(20[0-9]{2})\b` in scan order (the semantics of a
global regex scan: after a match the engine resumes after the token). -/
def yearTokens : Option Char → List Char → List Nat
  | prev, c :: c1 :: c2 :: c3 :: rest =>
    if boundaryBefore prev && (c = '2' : Bool) && (c1 = '0' : Bool) &&
        c2.isDigit && c3.isDigit && boundaryAfter rest then
      (2000 + 10 * digitVal c2 + digitVal c3) :: yearTokens (some c3) rest
    else
      yearTokens (some c) (c1 :: c2 :: c3 :: rest)
  | _, _ => []

/-- First match of `\b(20[0-9]{2})\b`, the semantics of
`combined.match(/\b(20[0-9]{2})\b/)` followed by `parseInt` of the group. -/
def firstYearToken : Option Char → List Char → Option Nat
  | prev, c :: c1 :: c2 :: c3 :: rest =>
    if boundaryBefore prev && (c = '2' : Bool) && (c1 = '0' : Bool) &&
        c2.isDigit && c3.isDigit && boundaryAfter rest then
      some (2000 + 10 * digitVal c2 + digitVal c3)
    else
      firstYearToken (some c) (c1 :: c2 :: c3 :: rest)
  | _, _ => none

/-- `s.match(/\b(20[0-9]{2})\b/)` on a whole string. -/
def jsFirstYearMatch (s : String) : Option Nat :=
  firstYearToken none s.data

/-! ## Discoverer/Classifier (downloader.ts) -/

/-- `annualKeywords` list from `isAnnualReport` (downloader.ts:298). -/
def annualKeywords : List String :=
  ["annual report", "integrated report", "form 20-f", "form 10-k",
   "årsrapport", "jahresbericht", "rapport annuel", "informe anual",
   "annual report on form 20-f", "annual report on form 10-k"]

/-- `excludeKeywords` list from `isAnnualReport` (downloader.ts:312). -/
def excludeKeywords : List String :=
  ["sustainability", "esg", "corporate responsibility", "tax strategy",
   "tax report", "interim", "quarterly", "half year", "half-year",
   "q1", "q2", "q3", "q4", "first quarter", "second quarter",
   "third quarter", "fourth quarter", "presentation", "investor day",
   "factsheet", "fact sheet", "notice", "proxy statement", "proxy",
   "governance", "compensation", "remuneration", "registration statement",
   "prospectus", "offering circular", "shelf registration", "earnings",
   "results announcement", "press release", "amendment", "form 8-k",
   "form 10-q", "form def 14a", "form s-", "form f-", "form 6-k",
   "current report", "material agreement", "insider trading", "dividend",
   "stock split", "merger", "acquisition", "corporate action", "warrant",
   "rights offering"]

/-- Faithful translation of `isAnnualReport(text, href)`
(downloader.ts:293-399). -/
def isAnnualReport (text href : String) : Bool :=
  let lowerText := lowerStr text
  let lowerHref := lowerStr href
  let isForm20F := jsIncludes lowerText "form 20-f" || jsIncludes lowerText "20-f"
  let isForm10K := jsIncludes lowerText "form 10-k" || jsIncludes lowerText "10-k"
  if isForm20F || isForm10K then
    let isAmendment :=
      jsIncludes lowerText "amendment" || jsIncludes lowerText "/a" ||
      jsIncludes lowerText "form 20-f/a" || jsIncludes lowerText "form 10-k/a"
    !isAmendment
  else
    let hasAnnualKeyword :=
      annualKeywords.any fun k => jsIncludes lowerText k || jsIncludes lowerHref k
    let hasExcludeKeyword :=
      excludeKeywords.any fun k => jsIncludes lowerText k || jsIncludes lowerHref k
    let hasYear := (jsFirstYearMatch (lowerText ++ " " ++ lowerHref)).isSome
    let hasAnnual := jsIncludes lowerText "annual" || jsIncludes lowerHref "annual"
    (hasAnnualKeyword || (hasYear && hasAnnual)) && !hasExcludeKeyword

/-- Faithful translation of `extractYear(text, href)` (downloader.ts:566-577):
first `\b(20[0-9]{2})\b` token of `text + " " + href`, kept only when it
lies in the fixed window `[2014, 2024]`. -/
def extractYear (text href : String) : Option Nat :=
  match jsFirstYearMatch (text ++ " " ++ href) with
  | some y => if 2014 ≤ y ∧ y ≤ 2024 then some y else none
  | none => none

/-- Faithful translation of `extractYearFromFilename(filename)`
(parser.ts:1899-1908): same rule applied to the file name alone. -/
def extractYearFromFilename (filename : String) : Option Nat :=
  match jsFirstYearMatch filename with
  | some y => if 2014 ≤ y ∧ y ≤ 2024 then some y else none
  | none => none

/-! ## Stable sorting (model of `Array.prototype.sort`, stable per ES2019) -/

/-- Stable insertion for a descending-by-key sort: an incoming element is
placed before the first element whose key is not larger, so earlier list
elements stay ahead of equal-keyed later ones. -/
def insertKeyDesc (key : α → Nat) (x : α) : List α → List α
  | [] => [x]
  | y :: ys => if key x < key y then y :: insertKeyDesc key x ys else x :: y :: ys

/-- Stable descending sort by a `Nat` key, the model of
`arr.sort((a, b) => b.key - a.key)`. -/
def sortKeyDesc (key : α → Nat) : List α → List α
  | [] => []
  | x :: xs => insertKeyDesc key x (sortKeyDesc key xs)

/-- Executable lexicographic comparison of character lists (code-point
order, the comparison the default `Array.prototype.sort` applies to
strings). -/
def charsLt : List Char → List Char → Bool
  | [], [] => false
  | [], _ :: _ => true
  | _ :: _, [] => false
  | a :: as, b :: bs =>
    if a < b then true
    else if b < a then false
    else charsLt as bs

/-- Executable `String` strict comparison. -/
def strLt (a b : String) : Bool :=
  charsLt a.data b.data

/-- Stable insertion for an ascending lexicographic sort of strings. -/
def insertStrAsc (x : String) : List String → List String
  | [] => [x]
  | y :: ys => if strLt y x then y :: insertStrAsc x ys else x :: y :: ys

/-- Stable ascending sort of strings, the model of the default
`arr.sort()` on arrays of strings (lexicographic comparison). -/
def sortStrAsc : List String → List String
  | [] => []
  | x :: xs => insertStrAsc x (sortStrAsc xs)

/-! ## Discovery over a scraped link list -/

/-- A scraped anchor: display text plus `href`. -/
structure Link where
  text : String
  href : String
  deriving DecidableEq

/-- A retained candidate: a link together with its inferred fiscal year. -/
structure ReportLink where
  text : String
  href : String
  year : Nat
  deriving DecidableEq

/-- `const targetYears = Array.from({length: 10}, (_, i) => currentYear - i)`
with `currentYear = 2024` hardcoded (downloader.ts:1133-1134). -/
def targetYears : List Nat :=
  (List.range 10).map (fun i => 2024 - i)

/-- One iteration of the candidate filter loop of `scrapeAndDownloadReports`
(downloader.ts:1140-1176): keep the link when it classifies as an annual
report, a year is extracted, the year is in `targetYears`, and no earlier
candidate took that year. -/
def selectStep (acc : List ReportLink) (l : Link) : List ReportLink :=
  if isAnnualReport l.text l.href then
    match extractYear l.text l.href with
    | some year =>
      if targetYears.contains year then
        if (acc.find? (fun r => r.year = year)).isSome then acc
        else acc ++ [⟨l.text, l.href, year⟩]
      else acc
    | none => acc
  else acc

/-- The candidate filter loop of `scrapeAndDownloadReports`
(downloader.ts:1140-1179): run `selectStep` over the scraped links, then
sort descending by year. -/
def selectValidReports (allPdfLinks : List Link) : List ReportLink :=
  sortKeyDesc (fun r => r.year) (allPdfLinks.foldl selectStep [])

/-- A discovered report of the static scraper: year plus resolved link. -/
structure YearLink where
  year : Nat
  link : String
  deriving DecidableEq

/-- `INCLUDE_KEYWORDS = /(annual|integrated)/i` (scraper.ts:1727). -/
def includeKeywordTest (combined : String) : Bool :=
  jsIncludes combined "annual" || jsIncludes combined "integrated"

/-- `EXCLUDE_KEYWORDS` regex of the static scraper (scraper.ts:1728). -/
def excludeKeywordTest (combined : String) : Bool :=
  ["tax", "gri", "tcfd", "sasb", "remuneration", "interim", "governance",
   "sustainability", "presentation"].any (jsIncludes combined)

/-- One anchor of the `scrapeStatic` loop (scraper.ts:1745-1763): the
`.pdf` suffix test, the include/exclude keyword regexes on the combined
lowered text, and the `[2014, 2024]` window on the first year token.
`resolve` stands for the external `new URL(href, irUrl).toString()`
relative-URL resolution. -/
def scrapeStaticStep (resolve : String → String) (acc : List YearLink)
    (a : Link) : List YearLink :=
  if !(jsEndsWith (lowerStr a.href) ".pdf") then acc
  else
    let combined := lowerStr (a.text ++ " " ++ a.href)
    if !(includeKeywordTest combined) || excludeKeywordTest combined then acc
    else
      match jsFirstYearMatch combined with
      | none => acc
      | some year =>
        if 2014 ≤ year ∧ year ≤ 2024 then
          let absoluteLink := if jsStartsWith a.href "http" then a.href else resolve a.href
          acc ++ [⟨year, absoluteLink⟩]
        else acc

/-- Faithful translation of the anchor loop of `scrapeStatic`
(scraper.ts:1745-1765): collect matches, sort descending by year, keep 10. -/
def scrapeStatic (resolve : String → String) (anchors : List Link) : List YearLink :=
  (sortKeyDesc (fun r => r.year) (anchors.foldl (scrapeStaticStep resolve) [])).take 10

/-! ## Claim-side definitions (translated from the specification text, to be
compared against the code-side definitions above) -/

/-- The classifier acceptance rule as the specification words it: accepted
iff the text or URL matches an include pattern (annual/integrated report,
the 20-F / 10-K filing-form codes, locale equivalents) and no exclude
pattern matches (amendment forms are themselves an exclude pattern). -/
def claimClassifierAccepts (text href : String) : Bool :=
  let lt := lowerStr text
  let lh := lowerStr href
  let includeHit :=
    annualKeywords.any (fun k => jsIncludes lt k || jsIncludes lh k) ||
    jsIncludes lt "20-f" || jsIncludes lh "20-f" ||
    jsIncludes lt "10-k" || jsIncludes lh "10-k"
  let excludeHit :=
    excludeKeywords.any fun k => jsIncludes lt k || jsIncludes lh k
  includeHit && !excludeHit

/-- Year assignment as the specification words it: the first 4-digit token
within `[currentYear - 9, currentYear]` (with `currentYear = 2024`) found
across text and URL. -/
def claimExtractYear (text href : String) : Option Nat :=
  ((yearTokens none (text ++ " " ++ href).data).filter
    (fun y => decide (2015 ≤ y ∧ y ≤ 2024))).head?

/-- The classifier restated as the amended claim describes it: a filing-form
code in the display text short-circuits the decision to the amendment
check alone; otherwise an include keyword (or a year token plus the word
"annual") is required and any exclude keyword rejects. -/
def classifierAmended (text href : String) : Bool :=
  let lt := lowerStr text
  let lh := lowerStr href
  if jsIncludes lt "20-f" || jsIncludes lt "10-k" then
    !(jsIncludes lt "amendment" || jsIncludes lt "/a")
  else
    ((annualKeywords.any fun k => jsIncludes lt k || jsIncludes lh k) ||
      ((jsFirstYearMatch (lt ++ " " ++ lh)).isSome &&
        (jsIncludes lt "annual" || jsIncludes lh "annual"))) &&
    !(excludeKeywords.any fun k => jsIncludes lt k || jsIncludes lh k)

/-! ## JSON values and a model of the ECMAScript `JSON.parse`

`parsePDFWithAI` hands the raw completion text to `JSON.parse` after a
greedy regex slice.  We model the standard `JSON.parse` grammar (objects,
arrays, strings with the JSON escapes, numbers kept as their lexemes,
booleans, null; trailing non-whitespace rejected).  Fuel bounds the
recursion depth; `2 * length + 8` strictly dominates the number of parser
steps, each of which consumes input or descends. -/

/-- The brace characters, named once (also used by the `/\{[\s\S]*\}/`
slice model). -/
def lbrace : Char := '\x7b'

/-- Closing brace. -/
def rbrace : Char := '\x7d'

/-- Parsed JSON values; numbers keep their source lexeme (no numeric
semantics are needed by any claim). -/
inductive Json where
  | str (s : String)
  | num (lexeme : String)
  | bool (b : Bool)
  | null
  | arr (elems : List Json)
  | obj (fields : List (String × Json))

/-- JSON whitespace skipping. -/
def skipWs (cs : List Char) : List Char :=
  cs.dropWhile (fun c => c = ' ' || c = '\t' || c = '\n' || c = '\r')

/-- The single-character JSON escapes. -/
def escChar (e : Char) : Option Char :=
  if e = '"' then some '"'
  else if e = '\\' then some '\\'
  else if e = '/' then some '/'
  else if e = 'b' then some (Char.ofNat 8)
  else if e = 'f' then some (Char.ofNat 12)
  else if e = 'n' then some '\n'
  else if e = 'r' then some '\r'
  else if e = 't' then some '\t'
  else none

/-- Hexadecimal digit value. -/
def hexVal (c : Char) : Option Nat :=
  if c.isDigit then some (c.toNat - '0'.toNat)
  else if 'a' ≤ c ∧ c ≤ 'f' then some (c.toNat - 'a'.toNat + 10)
  else if 'A' ≤ c ∧ c ≤ 'F' then some (c.toNat - 'A'.toNat + 10)
  else none

/-- JSON string body (after the opening quote): returns the decoded
characters and the remainder after the closing quote. -/
def parseStringChars : Nat → List Char → Option (List Char × List Char)
  | 0, _ => none
  | _, [] => none
  | fuel + 1, c :: rest =>
    if c = '"' then some ([], rest)
    else if c = '\\' then
      match rest with
      | [] => none
      | e :: rest2 =>
        if e = 'u' then
          match rest2 with
          | h1 :: h2 :: h3 :: h4 :: rest3 =>
            match hexVal h1, hexVal h2, hexVal h3, hexVal h4 with
            | some a, some b, some c2, some d =>
              (parseStringChars fuel rest3).map
                (fun p => (Char.ofNat (((a * 16 + b) * 16 + c2) * 16 + d) :: p.1, p.2))
            | _, _, _, _ => none
          | _ => none
        else
          match escChar e with
          | some ec => (parseStringChars fuel rest2).map (fun p => (ec :: p.1, p.2))
          | none => none
    else (parseStringChars fuel rest).map (fun p => (c :: p.1, p.2))

/-- JSON number lexeme: `-? int frac? exp?` with the JSON leading-zero
rule.  Returns the lexeme and the remainder. -/
def parseNumberLex (cs : List Char) : Option (List Char × List Char) :=
  let (neg, cs1) := match cs with
    | '-' :: r => (['-'], r)
    | _ => (([] : List Char), cs)
  match cs1 with
  | [] => none
  | d :: r =>
    if d = '0' then
      let (frac, r2) := numFracExp r
      some (neg ++ [d] ++ frac, r2)
    else if d.isDigit then
      let (ds, r1) := r.span Char.isDigit
      let (frac, r2) := numFracExp r1
      some (neg ++ [d] ++ ds ++ frac, r2)
    else none
where
  /-- Optional fraction and exponent parts (leniently empty on mismatch). -/
  numFracExp (cs : List Char) : List Char × List Char :=
    let (frac, r1) := match cs with
      | '.' :: d :: r => if d.isDigit then
          let (ds, r2) := r.span Char.isDigit
          ('.' :: d :: ds, r2)
        else ([], cs)
      | _ => ([], cs)
    let (expo, r2) := match r1 with
      | e :: rest =>
        if e = 'e' || e = 'E' then
          match rest with
          | s :: d :: r3 =>
            if (s = '+' || s = '-') && d.isDigit then
              let (ds, r4) := r3.span Char.isDigit
              ([e, s, d] ++ ds, r4)
            else if s.isDigit then
              let (ds, r4) := (d :: r3).span Char.isDigit
              ([e, s] ++ ds, r4)
            else ([], r1)
          | [s] => if s.isDigit then ([e, s], []) else ([], r1)
          | [] => ([], r1)
        else ([], r1)
      | [] => ([], r1)
    (frac ++ expo, r2)

mutual

/-- One JSON value, by recursive descent. -/
def parseVal : Nat → List Char → Option (Json × List Char)
  | 0, _ => none
  | fuel + 1, cs =>
    match skipWs cs with
    | [] => none
    | c :: rest =>
      if c = lbrace then parseObjFields fuel rest true []
      else if c = '[' then parseArrElems fuel rest true []
      else if c = '"' then
        (parseStringChars (fuel + 1) rest).map (fun p => (Json.str ⟨p.1⟩, p.2))
      else if c = 't' then
        match rest with
        | 'r' :: 'u' :: 'e' :: r2 => some (Json.bool true, r2)
        | _ => none
      else if c = 'f' then
        match rest with
        | 'a' :: 'l' :: 's' :: 'e' :: r2 => some (Json.bool false, r2)
        | _ => none
      else if c = 'n' then
        match rest with
        | 'u' :: 'l' :: 'l' :: r2 => some (Json.null, r2)
        | _ => none
      else
        match parseNumberLex (c :: rest) with
        | some p => some (Json.num ⟨p.1⟩, p.2)
        | none => none

/-- Object members after the opening brace (`first` is true before any
member has been read, allowing the empty object). -/
def parseObjFields : Nat → List Char → Bool → List (String × Json) →
    Option (Json × List Char)
  | 0, _, _, _ => none
  | fuel + 1, cs, first, acc =>
    match skipWs cs with
    | [] => none
    | c :: rest =>
      if first && c = rbrace then some (Json.obj acc, rest)
      else if c = '"' then
        match parseStringChars (fuel + 1) rest with
        | none => none
        | some (key, r1) =>
          match skipWs r1 with
          | ':' :: r2 =>
            match parseVal fuel r2 with
            | none => none
            | some (v, r3) =>
              match skipWs r3 with
              | ',' :: r4 => parseObjFields fuel r4 false (acc ++ [(⟨key⟩, v)])
              | d :: r5 =>
                if d = rbrace then some (Json.obj (acc ++ [(⟨key⟩, v)]), r5)
                else none
              | [] => none
          | _ => none
      else none

/-- Array elements after the opening bracket. -/
def parseArrElems : Nat → List Char → Bool → List Json →
    Option (Json × List Char)
  | 0, _, _, _ => none
  | fuel + 1, cs, first, acc =>
    match skipWs cs with
    | [] => none
    | c :: rest =>
      if first && c = ']' then some (Json.arr acc, rest)
      else
        match parseVal fuel (c :: rest) with
        | none => none
        | some (v, r1) =>
          match skipWs r1 with
          | ',' :: r2 => parseArrElems fuel r2 false (acc ++ [v])
          | ']' :: r2 => some (Json.arr (acc ++ [v]), r2)
          | _ => none

end

/-- Model of `JSON.parse`: one value, then only whitespace may remain. -/
def jsonParseFull (s : String) : Option Json :=
  match parseVal (2 * s.data.length + 8) s.data with
  | some (j, rest) => if (skipWs rest).isEmpty then some j else none
  | none => none

/-! ## The extraction adapter of `parsePDFWithAI` (downloader.ts:2039-2072) -/

/-- The greedy regex `/\{[\s\S]*\}/`: from the first opening brace to the
last closing brace at or after it (`none` when there is no match). -/
def greedyBraceMatch (cs : List Char) : Option (List Char) :=
  let rest := cs.dropWhile (fun c => c ≠ lbrace)
  match rest with
  | [] => none
  | _ :: _ =>
    let kept := (rest.reverse.dropWhile (fun c => c ≠ rbrace)).reverse
    match kept with
    | [] => none
    | _ :: _ => some kept

/-- `const jsonString = jsonMatch ? jsonMatch[0] : aiResponse`. -/
def jsonSliceOf (s : String) : String :=
  match greedyBraceMatch s.data with
  | some cs => ⟨cs⟩
  | none => s

/-- JS property access on a parsed JSON value; on duplicate keys
`JSON.parse` keeps the last occurrence. -/
def getField (j : Json) (k : String) : Option Json :=
  match j with
  | Json.obj fs => (fs.reverse.find? (fun p => p.1 = k)).map (fun p => p.2)
  | _ => none

/-- Does the mantissa of a JSON number lexeme contain a nonzero digit? -/
def numLexIsZero (lexeme : String) : Bool :=
  (lexeme.data.takeWhile (fun c => c ≠ 'e' ∧ c ≠ 'E')).all
    (fun c => !(c.isDigit && c ≠ '0'))

/-- JS truthiness of a parsed JSON value. -/
def jsTruthy : Json → Bool
  | Json.null => false
  | Json.bool b => b
  | Json.str s => !s.data.isEmpty
  | Json.num lexeme => !numLexIsZero lexeme
  | Json.arr _ => true
  | Json.obj _ => true

/-- `parsedData.k` in a truthiness test position: a present, truthy field. -/
def truthyField (j : Json) (k : String) : Option Json :=
  match getField j k with
  | some v => if jsTruthy v then some v else none
  | none => none

/-- The three statement maps returned for one year. -/
structure ExtractTriple where
  income_statement : Json
  balance_sheet : Json
  cash_flow : Json

/-- Response handling of `parsePDFWithAI` (downloader.ts:2039-2072): slice
with the greedy brace regex (whole response when no match), `JSON.parse`,
then require the three top-level keys to be present and truthy. -/
def adaptResponse (aiResponse : String) : Option ExtractTriple :=
  let jsonString := jsonSliceOf aiResponse
  match jsonParseFull jsonString with
  | none => none
  | some parsed =>
    match truthyField parsed "income_statement", truthyField parsed "balance_sheet",
        truthyField parsed "cash_flow" with
    | some i, some b, some c => some ⟨i, b, c⟩
    | _, _, _ => none

/-- The adapter as the claim words it (translated from the specification
text): locate the first balanced object substring — the substring starting
at the first opening brace that parses as one JSON value, whatever
follows — parse it, and reject only when one of the three required
top-level keys is absent. -/
def claimAdaptResponse (resp : String) : Option ExtractTriple :=
  let rest := resp.data.dropWhile (fun c => c ≠ lbrace)
  match parseVal (2 * resp.data.length + 8) rest with
  | some (j, _) =>
    match getField j "income_statement", getField j "balance_sheet",
        getField j "cash_flow" with
    | some i, some b, some c => some ⟨i, b, c⟩
    | _, _, _ => none
  | none => none

/-! ## Per-document extraction (`parsePDFWithAI`, downloader.ts:1985-2077) -/

/-- One year of parsed statements (`PDFParseResult`). -/
structure PDFParseResult where
  year : Nat
  filename : String
  income_statement : Json
  balance_sheet : Json
  cash_flow : Json

/-- The three statement types. -/
inductive StatementType where
  | income_statement
  | balance_sheet
  | cash_flow
  deriving DecidableEq

/-- Field selection by statement type. -/
def PDFParseResult.stmt (r : PDFParseResult) : StatementType → Json
  | StatementType.income_statement => r.income_statement
  | StatementType.balance_sheet => r.balance_sheet
  | StatementType.cash_flow => r.cash_flow

/-- Failure modes of the hosted extraction service call. -/
inductive AIFailure where
  | authentication
  | rateLimit
  | network
  | other
  deriving DecidableEq

/-- Outcome of the `openai.chat.completions.create` call. -/
inductive AIOutcome where
  | content (s : String)
  | emptyResponse
  | failure (e : AIFailure)

/-- Faithful control-flow model of `parsePDFWithAI` (downloader.ts:1985-2077).
`pdfText` is the text-extraction outcome (`none` when `readFileSync` or
`pdf()` threw).  The whole body sits in `try … catch → return null`, so a
thrown service error — `AIFailure.authentication` included — is swallowed
and becomes a per-year `none`. -/
def parsePDFWithAI (pdfText : Option String) (ai : AIOutcome) (year : Nat)
    (filename : String) : Option PDFParseResult :=
  match pdfText with
  | none => none
  | some t =>
    if t.length < 1000 then none
    else
      match ai with
      | AIOutcome.failure _ => none
      | AIOutcome.emptyResponse => none
      | AIOutcome.content s =>
        match adaptResponse s with
        | some triple =>
          some ⟨year, filename, triple.income_statement, triple.balance_sheet,
            triple.cash_flow⟩
        | none => none

/-! ## Consolidator (`normalizeFinancialData`, downloader.ts:2082-2121) -/

/-- Mutable state of the merge loop: per statement type, the year-keyed map
built so far and the `processedYears` set. -/
structure NormState where
  maps : StatementType → Nat → Option Json
  processed : StatementType → List Nat

/-- One iteration of the merge loop: for each statement type, write the
result's statements under its year unless that year was already
processed for that type. -/
def normStep (s : NormState) (r : PDFParseResult) : NormState :=
  { maps := fun t =>
      if (s.processed t).contains r.year then s.maps t
      else fun y => if y = r.year then some (r.stmt t) else s.maps t y
    processed := fun t =>
      if (s.processed t).contains r.year then s.processed t
      else s.processed t ++ [r.year] }

/-- Faithful translation of `normalizeFinancialData`: sort descending by
year (stable), then first write per (statement type, year) wins. -/
def normalizeFinancialData (parseResults : List PDFParseResult) :
    StatementType → Nat → Option Json :=
  ((sortKeyDesc (fun r => r.year) parseResults).foldl normStep
    ⟨fun _ _ => none, fun _ => []⟩).maps

/-- The consolidated record assembled by `parseFinancialStatements`
(downloader.ts:2213-2227): statements, `total_files`, `years_covered`. -/
structure Consolidated where
  statements : StatementType → Nat → Option Json
  total_files : Nat
  years_covered : List String

/-- `normalizeFinancialData` plus the metadata computation
`parseResults.map(r => r.year.toString()).sort()` and
`total_files: parseResults.length`. -/
def consolidate (parseResults : List PDFParseResult) : Consolidated :=
  { statements := normalizeFinancialData parseResults
    total_files := parseResults.length
    years_covered := sortStrAsc (parseResults.map (fun r => Nat.repr r.year)) }

/-- Per-document oracle for a run of `parseFinancialStatements`: the file
name, the text-extraction outcome and the service-call outcome. -/
structure DocOutcome where
  filename : String
  pdfText : Option String
  ai : AIOutcome

/-- Terminal errors thrown by `parseFinancialStatements`. -/
inductive RunError where
  | noPdfFiles
  | noParsedFiles
  deriving DecidableEq

/-- The driver loop of `parseFinancialStatements` (downloader.ts:2160-2235):
skip files without an identifiable year, collect the per-file parse
results (every per-file failure is a skip), throw only when nothing parsed,
otherwise consolidate. -/
def parseFinancialStatementsRun (docs : List DocOutcome) :
    Except RunError Consolidated :=
  if docs.isEmpty then Except.error RunError.noPdfFiles
  else
    let parseResults := docs.filterMap (fun d =>
      match extractYearFromFilename d.filename with
      | none => none
      | some year => parsePDFWithAI d.pdfText d.ai year d.filename)
    if parseResults.isEmpty then Except.error RunError.noParsedFiles
    else Except.ok (consolidate parseResults)

/-- `years_covered` of a successful run. -/
def yearsOf : Except RunError Consolidated → Option (List String)
  | Except.ok c => some c.years_covered
  | Except.error _ => none

/-! ## Exporter (`CSVExporter`, csvExporter.ts:48-172) -/

/-- The compiled per-company record as the exporter reads it
(`ParsedFinancialStatements`): year-string-keyed statement maps of
item-to-value string maps, plus `years_covered`. -/
structure PFS where
  statements : StatementType → String → Option (List (String × String))
  years_covered : List String

/-- JS property read `m[item]` on a parsed statement map (last binding
wins, as in `JSON.parse`). -/
def lookupItem (m : List (String × String)) (item : String) : Option String :=
  (m.reverse.find? (fun p => p.1 = item)).map (fun p => p.2)

/-- The JS idiom `v || "N/A"` on a string-or-undefined value. -/
def jsOrNA (v : Option String) : String :=
  match v with
  | some s => if s.data.isEmpty then "N/A" else s
  | none => "N/A"

/-- One cell of the per-company table:
`statementData[year]?.[item] || "N/A"` (csvExporter.ts:86). -/
def csvCell (d : PFS) (t : StatementType) (year item : String) : String :=
  jsOrNA ((d.statements t year).bind (fun m => lookupItem m item))

/-- `formatStatementName` (csvExporter.ts:208-215). -/
def formatStatementName : StatementType → String
  | StatementType.income_statement => "Income Statement"
  | StatementType.balance_sheet => "Balance Sheet"
  | StatementType.cash_flow => "Cash Flow Statement"

/-- `Array.from(new Set(xs))` (helper): keep elements not seen yet. -/
def dedupFirstAux (seen : List String) : List String → List String
  | [] => []
  | x :: xs =>
    if seen.contains x then dedupFirstAux seen xs
    else x :: dedupFirstAux (seen ++ [x]) xs

/-- `Array.from(new Set(xs))`: deduplication keeping first occurrences. -/
def dedupFirst (l : List String) : List String :=
  dedupFirstAux [] l

/-- The row grid of `generateCSV` (csvExporter.ts:48-96): per statement
type, the sorted union of items over the sorted `years_covered` columns;
each row carries its year-indexed cells. -/
def generateCSVRows (d : PFS) : List (String × String × List String) :=
  let years := sortStrAsc d.years_covered
  [StatementType.income_statement, StatementType.balance_sheet,
    StatementType.cash_flow].flatMap (fun t =>
    let allItems := sortStrAsc (dedupFirst (years.flatMap (fun y =>
      match d.statements t y with
      | some m => m.map (fun p => p.1)
      | none => [])))
    allItems.map (fun item =>
      (formatStatementName t, item, years.map (fun y => csvCell d t y item))))

/-- One cell of the comparative table:
`data?.statements[statementType][year]?.[item] || "N/A"`
(csvExporter.ts:153-154); `companyData` is the loaded per-company map, with
`none` for a company whose compiled file does not exist. -/
def comparativeCell (companyData : String → Option PFS) (company : String)
    (t : StatementType) (year item : String) : String :=
  match companyData company with
  | none => "N/A"
  | some d => csvCell d t year item

/-! ## Browser lifecycle (scraper.ts:1771-1847, downloader.ts:1267-1276) -/

/-- Environment oracle for one `scrapeWithPuppeteer` execution: which of
the awaited browser operations succeed, and what the page evaluations
return (`none` models a thrown error). -/
structure PupEnv where
  newPageOk : Bool
  mainGotoOk : Bool
  anchorHrefs : Option (List String)
  yearGotoOk : String → Bool
  yearWaitOk : String → Bool
  yearPdfLinks : String → Option (List String)

/-- `/annual-report\/20[0-9]{2}/.test(href)`: the literal path fragment
followed by two digits, anywhere in the string. -/
def arpAt (cs : List Char) : Bool :=
  ("annual-report/20".data.isPrefixOf cs) &&
    (match cs.drop 16 with
     | d1 :: d2 :: _ => d1.isDigit && d2.isDigit
     | _ => false)

/-- Scan for the year-navigation path pattern. -/
def hasAnnualReportYearPath : List Char → Bool
  | [] => false
  | c :: rest => arpAt (c :: rest) || hasAnnualReportYearPath rest

/-- `new Map(reports.map(r => [r.link, r]))` insertion: last value wins,
first position kept. -/
def mapInsertByLink (acc : List YearLink) (v : YearLink) : List YearLink :=
  if acc.any (fun p => p.link = v.link) then
    acc.map (fun p => if p.link = v.link then v else p)
  else acc ++ [v]

/-- `Array.from(new Map(...).values())`: dedupe by link. -/
def dedupByLink (l : List YearLink) : List YearLink :=
  l.foldl mapInsertByLink []

/-- The per-year navigation loop of `scrapeWithPuppeteer`
(scraper.ts:1796-1838).  Returns `none` when an uncaught await failed (the
exception propagates with the browser still open); the caught
`waitForSelector` timeout just skips the year. -/
def pupYearLoop (env : PupEnv) (resolveAt : String → String → String)
    (irUrl : String) :
    List String → List YearLink → Option (List YearLink)
  | [], acc => some acc
  | yLink :: rest, acc =>
    let yearUrl := if jsStartsWith yLink "http" then yLink else resolveAt irUrl yLink
    match jsFirstYearMatch yearUrl with
    | none => pupYearLoop env resolveAt irUrl rest acc
    | some year =>
      if year < 2014 ∨ year > 2024 then pupYearLoop env resolveAt irUrl rest acc
      else if !env.yearGotoOk yearUrl then none
      else if !env.yearWaitOk yearUrl then pupYearLoop env resolveAt irUrl rest acc
      else
        match env.yearPdfLinks yearUrl with
        | none => none
        | some anchors =>
          let pdfLinks := anchors.filter (fun h =>
            jsEndsWith (lowerStr h) ".pdf" && jsIncludes h (Nat.repr year))
          let adds := pdfLinks.filterMap (fun p =>
            let combined := lowerStr p
            if !(includeKeywordTest combined) || excludeKeywordTest combined then none
            else some (⟨year, if jsStartsWith p "http" then p else resolveAt yearUrl p⟩ : YearLink))
          pupYearLoop env resolveAt irUrl rest (acc ++ adds)

/-- Result of a browser-using scrape: the returned reports (`none` when an
exception escaped) and whether the launched browser is still open when the
function terminates. -/
structure PupOutcome where
  result : Option (List YearLink)
  browserOpen : Bool

/-- Tail of `scrapeWithPuppeteer` after the year loop: a loop exception
propagates with the browser open; otherwise `browser.close()` runs and the
deduplicated, sorted, capped reports are returned (scraper.ts:1840-1846). -/
def pupFinish : Option (List YearLink) → PupOutcome
  | none => ⟨none, true⟩
  | some reports =>
    ⟨some ((sortKeyDesc (fun r => r.year) (dedupByLink reports)).take 10), false⟩

/-- The `$$eval` for year-navigation links and everything after it: a
thrown evaluation leaves the browser open, otherwise the year loop runs on
the deduplicated matching links (scraper.ts:1787-1794). -/
def pupMain (env : PupEnv) (resolveAt : String → String → String)
    (irUrl : String) : Option (List String) → PupOutcome
  | none => ⟨none, true⟩
  | some hrefs =>
    let yearLinks := hrefs.filter (fun h => hasAnnualReportYearPath h.data)
    let uniqueYearLinks := dedupFirst yearLinks
    pupFinish (pupYearLoop env resolveAt irUrl uniqueYearLinks [])

/-- Faithful lifecycle model of `scrapeWithPuppeteer` (scraper.ts:1771-1847):
the browser is launched first, `browser.close()` is executed only on the
straight-line path after the loop — every thrown await leaves it open. -/
def scrapeWithPuppeteer (env : PupEnv) (resolveAt : String → String → String)
    (irUrl : String) : PupOutcome :=
  if !env.newPageOk then ⟨none, true⟩
  else if !env.mainGotoOk then ⟨none, true⟩
  else pupMain env resolveAt irUrl env.anchorHrefs

/-- Browser lifecycle of `scrapeAndDownloadReports` (downloader.ts:715-1276):
navigation has a fallback attempt (both failing throws), the whole body is
wrapped in `try … finally { try browser.close() catch {} }`, so whatever
the body outcome, the function terminates with the browser closed. -/
def scrapeAndDownloadReportsLifecycle (nav1Ok nav2Ok : Bool)
    (body : Except Unit α) : Except Unit α × Bool :=
  let inner : Except Unit α :=
    if nav1Ok then body
    else if nav2Ok then body
    else Except.error ()
  (inner, false)

/-! ## Concrete inputs used by counterexamples and witnesses -/

/-- Two same-year static-scraper anchors. -/
def c1Anchors : List Link :=
  [⟨"Annual Report 2020", "r1.pdf"⟩, ⟨"Annual Report 2020 second", "r2.pdf"⟩]

/-- A 10-K link that also carries exclude keywords. -/
def c2Text : String := "Form 10-K Presentation 2020"

/-- Its URL. -/
def c2Href : String := "a.pdf"

/-- A well-formed extraction response object (uses `\x7b`/`\x7d` for the
braces). -/
def goodJsonObj : String :=
  "\x7b\"income_statement\":\x7b\"Revenue\":\"100\"\x7d,\"balance_sheet\":\x7b\"Total Assets\":\"5\"\x7d,\"cash_flow\":\x7b\"Operating Cash Flow\":\"7\"\x7d\x7d"

/-- A response whose valid object is followed by prose containing another
braced fragment. -/
def c5DemoResp : String := goodJsonObj ++ " Note: \x7b\"z\":\"9\"\x7d"

/-- The triple encoded in `goodJsonObj`. -/
def c5Triple : ExtractTriple :=
  ⟨Json.obj [("Revenue", Json.str "100")],
   Json.obj [("Total Assets", Json.str "5")],
   Json.obj [("Operating Cash Flow", Json.str "7")]⟩

/-- A PDF text long enough to pass the 1000-character minimum. -/
def bigText : String := ⟨List.replicate 1000 'x'⟩

/-- A document whose service call fails with an authentication error. -/
def c4AuthDoc : DocOutcome :=
  ⟨"2020-annual-report.pdf", some bigText, AIOutcome.failure AIFailure.authentication⟩

/-- A document whose service call succeeds. -/
def c4GoodDoc : DocOutcome :=
  ⟨"2021-annual-report.pdf", some bigText, AIOutcome.content goodJsonObj⟩

/-- Two successfully parsed documents sharing fiscal year 2020. -/
def c6Results : List PDFParseResult :=
  [⟨2020, "2020-annual-report.pdf", Json.obj [], Json.obj [], Json.obj []⟩,
   ⟨2020, "2020-annual-report-v2.pdf", Json.obj [], Json.obj [], Json.obj []⟩]

/-- A link text whose first 20xx token is out of window while a later one
is inside it. -/
def c7Text : String := "2013 2020 Annual Report"

/-- An environment in which the initial `page.goto` times out. -/
def c9Env : PupEnv :=
  { newPageOk := true
    mainGotoOk := false
    anchorHrefs := some []
    yearGotoOk := fun _ => true
    yearWaitOk := fun _ => true
    yearPdfLinks := fun _ => some [] }

/-- An environment in which every browser operation succeeds and the main
page has no year links (a successful straight-line run). -/
def c9GoodEnv : PupEnv :=
  { newPageOk := true
    mainGotoOk := true
    anchorHrefs := some []
    yearGotoOk := fun _ => true
    yearWaitOk := fun _ => true
    yearPdfLinks := fun _ => some [] }

/-- A single unambiguous annual-report link. -/
def c1GoodLink : Link := ⟨"Annual Report 2020", "r1.pdf"⟩

/-- A tiny compiled record with year 2018 covered and 2019 absent, for the
exporter witness. -/
def c8Demo : PFS :=
  { statements := fun t y =>
      match t, y with
      | StatementType.income_statement, "2018" => some [("Revenue", "100")]
      | _, _ => none
    years_covered := ["2018"] }

/-! ## Helper lemmas -/

theorem prefixOf_spec : ∀ (l m : List Char), l.isPrefixOf m = true ↔ ∃ t, m = l ++ t := by
  intro l
  induction l with
  | nil => intro m; simp [List.isPrefixOf]
  | cons a as ih =>
    intro m
    cases m with
    | nil => simp [List.isPrefixOf]
    | cons b bs =>
      simp only [List.isPrefixOf, Bool.and_eq_true, beq_iff_eq, List.cons_append,
        List.cons.injEq]
      constructor
      · rintro ⟨rfl, h⟩
        obtain ⟨t, rfl⟩ := (ih bs).mp h
        exact ⟨t, rfl, rfl⟩
      · rintro ⟨t, rfl, rfl⟩
        exact ⟨rfl, (ih _).mpr ⟨t, rfl⟩⟩

theorem charsContain_spec : ∀ (s n : List Char),
    charsContain s n = true ↔ ∃ p q, s = p ++ n ++ q := by
  intro s
  induction s with
  | nil =>
    intro n
    cases n with
    | nil => exact ⟨fun _ => ⟨[], [], rfl⟩, fun _ => rfl⟩
    | cons n0 ns =>
      simp only [charsContain]
      constructor
      · intro h
        exact absurd h (by simp)
      · rintro ⟨p, q, h⟩
        have hl := congrArg List.length h
        simp [List.length_append] at hl
        omega
  | cons h t ih =>
    intro n
    cases n with
    | nil => exact ⟨fun _ => ⟨[], h :: t, rfl⟩, fun _ => rfl⟩
    | cons n0 ns =>
      simp only [charsContain, Bool.or_eq_true]
      rw [prefixOf_spec, ih]
      constructor
      · rintro (⟨q, hq⟩ | ⟨p, q, rfl⟩)
        · exact ⟨[], q, by simpa using hq⟩
        · exact ⟨h :: p, q, rfl⟩
      · rintro ⟨p, q, hep⟩
        cases p with
        | nil =>
          left
          exact ⟨q, by simpa using hep⟩
        | cons p0 ps =>
          right
          simp only [List.cons_append, List.cons.injEq] at hep
          exact ⟨ps, q, hep.2⟩

theorem charsContain_trans {s m n : List Char} (h1 : charsContain s m = true)
    (h2 : charsContain m n = true) : charsContain s n = true := by
  obtain ⟨p, q, rfl⟩ := (charsContain_spec _ _).mp h1
  obtain ⟨p2, q2, rfl⟩ := (charsContain_spec _ _).mp h2
  exact (charsContain_spec _ _).mpr ⟨p ++ p2, q2 ++ q, by simp⟩

theorem jsIncludes_trans {a b c : String} (h1 : jsIncludes a b = true)
    (h2 : jsIncludes b c = true) : jsIncludes a c = true :=
  charsContain_trans h1 h2

/-! Permutation and sortedness of the two stable sorts. -/

theorem perm_insertKeyDesc (key : α → Nat) (x : α) :
    ∀ l, (insertKeyDesc key x l).Perm (x :: l) := by
  intro l
  induction l with
  | nil => exact List.Perm.refl _
  | cons y ys ih =>
    by_cases h : key x < key y
    · simp only [insertKeyDesc, if_pos h]
      exact (ih.cons y).trans (List.Perm.swap x y ys)
    · simp only [insertKeyDesc, if_neg h]
      exact List.Perm.refl _

theorem perm_sortKeyDesc (key : α → Nat) : ∀ l, (sortKeyDesc key l).Perm l := by
  intro l
  induction l with
  | nil => exact List.Perm.refl _
  | cons x xs ih =>
    simp only [sortKeyDesc]
    exact (perm_insertKeyDesc key x _).trans (ih.cons x)

theorem pairwise_insertKeyDesc (key : α → Nat) (x : α) :
    ∀ {l}, l.Pairwise (fun a b => key b ≤ key a) →
      (insertKeyDesc key x l).Pairwise (fun a b => key b ≤ key a) := by
  intro l
  induction l with
  | nil =>
    intro _
    simp [insertKeyDesc]
  | cons y ys ih =>
    intro hp
    rw [List.pairwise_cons] at hp
    obtain ⟨hy, hys⟩ := hp
    by_cases h : key x < key y
    · simp only [insertKeyDesc, if_pos h]
      rw [List.pairwise_cons]
      refine ⟨fun z hz => ?_, ih hys⟩
      rcases List.mem_cons.mp ((perm_insertKeyDesc key x ys).mem_iff.mp hz) with rfl | hz2
      · exact Nat.le_of_lt h
      · exact hy z hz2
    · simp only [insertKeyDesc, if_neg h]
      rw [List.pairwise_cons]
      refine ⟨fun z hz => ?_, List.pairwise_cons.mpr ⟨hy, hys⟩⟩
      rcases List.mem_cons.mp hz with rfl | hz2
      · exact Nat.le_of_not_lt h
      · exact le_trans (hy z hz2) (Nat.le_of_not_lt h)

theorem sortKeyDesc_sorted (key : α → Nat) :
    ∀ l, (sortKeyDesc key l).Pairwise (fun a b => key b ≤ key a) := by
  intro l
  induction l with
  | nil => simp [sortKeyDesc]
  | cons x xs ih => exact pairwise_insertKeyDesc key x ih

theorem find?_insertKeyDesc (key : α → Nat) (p : α → Bool)
    (hp : ∀ a b, p a = true → p b = true → key a = key b) (x : α) :
    ∀ l, (insertKeyDesc key x l).find? p = ((x :: l).find? p) := by
  intro l
  induction l with
  | nil => rfl
  | cons y ys ih =>
    by_cases h : key x < key y
    · simp only [insertKeyDesc, if_pos h]
      cases hpy : p y with
      | true =>
        cases hpx : p x with
        | true =>
          have hk := hp x y hpx hpy
          exact absurd h (by rw [hk]; exact lt_irrefl _)
        | false => simp [List.find?, hpy, hpx]
      | false =>
        cases hpx : p x with
        | true => simp [List.find?, hpy, hpx, ih]
        | false => simp [List.find?, hpy, hpx, ih]
    · simp [insertKeyDesc, if_neg h]

theorem find?_sortKeyDesc (key : α → Nat) (p : α → Bool)
    (hp : ∀ a b, p a = true → p b = true → key a = key b) :
    ∀ l, (sortKeyDesc key l).find? p = l.find? p := by
  intro l
  induction l with
  | nil => rfl
  | cons x xs ih =>
    simp only [sortKeyDesc]
    rw [find?_insertKeyDesc key p hp x _]
    cases hpx : p x with
    | true => simp [List.find?, hpx]
    | false => simp [List.find?, hpx, ih]

theorem charsLt_iff_lex : ∀ as bs : List Char,
    charsLt as bs = true ↔ List.Lex (· < ·) as bs := by
  intro as
  induction as with
  | nil =>
    intro bs
    cases bs with
    | nil =>
      refine iff_of_false (by simp [charsLt]) ?_
      intro h
      cases h
    | cons b bs =>
      refine iff_of_true ?_ List.Lex.nil
      rfl
  | cons a as ih =>
    intro bs
    cases bs with
    | nil =>
      refine iff_of_false (by simp [charsLt]) ?_
      intro h
      cases h
    | cons b bs =>
      by_cases h1 : a < b
      · refine iff_of_true ?_ (List.Lex.rel h1)
        simp [charsLt, if_pos h1]
      · by_cases h2 : b < a
        · simp only [charsLt, if_neg h1, if_pos h2]
          refine iff_of_false (by simp) ?_
          intro h
          cases h with
          | rel h => exact h1 h
          | cons h => exact lt_irrefl _ h2
        · have hab : a = b := le_antisymm (le_of_not_lt h2) (le_of_not_lt h1)
          subst hab
          simp only [charsLt, if_neg h1, if_neg h2]
          rw [ih]
          exact (List.Lex.cons_iff).symm

theorem strLt_iff {a b : String} : strLt a b = true ↔ a < b := by
  rw [String.lt_iff_toList_lt]
  exact charsLt_iff_lex a.data b.data

theorem perm_insertStrAsc (x : String) :
    ∀ l, (insertStrAsc x l).Perm (x :: l) := by
  intro l
  induction l with
  | nil => exact List.Perm.refl _
  | cons y ys ih =>
    by_cases h : strLt y x
    · simp only [insertStrAsc, if_pos h]
      exact (ih.cons y).trans (List.Perm.swap x y ys)
    · simp only [insertStrAsc, if_neg h]
      exact List.Perm.refl _

theorem perm_sortStrAsc : ∀ l, (sortStrAsc l).Perm l := by
  intro l
  induction l with
  | nil => exact List.Perm.refl _
  | cons x xs ih =>
    simp only [sortStrAsc]
    exact (perm_insertStrAsc x _).trans (ih.cons x)

theorem pairwise_insertStrAsc (x : String) :
    ∀ {l}, l.Pairwise (fun a b => a ≤ b) →
      (insertStrAsc x l).Pairwise (fun a b => a ≤ b) := by
  intro l
  induction l with
  | nil =>
    intro _
    simp [insertStrAsc]
  | cons y ys ih =>
    intro hp
    rw [List.pairwise_cons] at hp
    obtain ⟨hy, hys⟩ := hp
    by_cases h : strLt y x
    · simp only [insertStrAsc, if_pos h]
      rw [List.pairwise_cons]
      refine ⟨fun z hz => ?_, ih hys⟩
      rcases List.mem_cons.mp ((perm_insertStrAsc x ys).mem_iff.mp hz) with rfl | hz2
      · exact le_of_lt (strLt_iff.mp h)
      · exact hy z hz2
    · simp only [insertStrAsc, if_neg h]
      rw [List.pairwise_cons]
      have hxy : x ≤ y := by
        have : ¬ y < x := fun hc => h (strLt_iff.mpr hc)
        exact le_of_not_lt this
      refine ⟨fun z hz => ?_, List.pairwise_cons.mpr ⟨hy, hys⟩⟩
      rcases List.mem_cons.mp hz with rfl | hz2
      · exact hxy
      · exact le_trans hxy (hy z hz2)

theorem sortStrAsc_sorted : ∀ l, (sortStrAsc l).Pairwise (fun a b => a ≤ b) := by
  intro l
  induction l with
  | nil => simp [sortStrAsc]
  | cons x xs ih => exact pairwise_insertStrAsc x ih

/-! The single-match scanner returns the head of the all-matches scan. -/

theorem firstYearToken_eq_head_aux :
    ∀ (n : Nat) (prev : Option Char) (cs : List Char), cs.length ≤ n →
      firstYearToken prev cs = (yearTokens prev cs).head? := by
  intro n
  induction n with
  | zero =>
    intro prev cs h
    have hnil : cs = [] := List.eq_nil_of_length_eq_zero (Nat.le_zero.mp h)
    subst hnil
    rfl
  | succ n ih =>
    intro prev cs hlen
    cases cs with
    | nil => rfl
    | cons c cs1 =>
      cases cs1 with
      | nil => rfl
      | cons c1 cs2 =>
        cases cs2 with
        | nil => rfl
        | cons c2 cs3 =>
          cases cs3 with
          | nil => rfl
          | cons c3 rest =>
            by_cases hcond : (boundaryBefore prev && (c = '2' : Bool) && (c1 = '0' : Bool) &&
                c2.isDigit && c3.isDigit && boundaryAfter rest) = true
            · simp [firstYearToken, yearTokens, hcond]
            · simp only [firstYearToken, yearTokens, if_neg hcond]
              refine ih (some c) (c1 :: c2 :: c3 :: rest) ?_
              simp only [List.length_cons] at hlen ⊢
              omega

theorem firstYearToken_eq_head (prev : Option Char) (cs : List Char) :
    firstYearToken prev cs = (yearTokens prev cs).head? :=
  firstYearToken_eq_head_aux cs.length prev cs (le_refl _)

/-! Counting distinct years. -/

theorem length_le_of_nodup_mem {l t : List Nat} (h : l.Nodup)
    (hsub : ∀ x ∈ l, x ∈ t) : l.length ≤ t.length := by
  calc l.length = l.toFinset.card := (List.toFinset_card_of_nodup h).symm
    _ ≤ t.toFinset.card := Finset.card_le_card (fun x hx => by
        rw [List.mem_toFinset] at hx ⊢
        exact hsub x hx)
    _ ≤ t.length := t.toFinset_card_le

/-! The write-once merge of `normalizeFinancialData`. -/

theorem normStep_inv {s : NormState} (r : PDFParseResult)
    (h : ∀ t y, y ∈ s.processed t ↔ ((s.maps t y).isSome = true)) :
    ∀ t y, y ∈ (normStep s r).processed t ↔
      ((((normStep s r).maps t y)).isSome = true) := by
  intro t y
  by_cases hcm : r.year ∈ s.processed t
  · have hp : (normStep s r).processed t = s.processed t := by
      simp [normStep, hcm]
    have hm : (normStep s r).maps t = s.maps t := by
      simp [normStep, hcm]
    rw [hp, hm]
    exact h t y
  · have hp : (normStep s r).processed t = s.processed t ++ [r.year] := by
      simp [normStep, hcm]
    have hm : (normStep s r).maps t =
        fun y => if y = r.year then some (r.stmt t) else s.maps t y := by
      simp [normStep, hcm]
    rw [hp, hm]
    by_cases hy : y = r.year
    · subst hy
      simp
    · simp only [List.mem_append, List.mem_singleton, hy, or_false, if_neg hy]
      exact h t y

theorem foldNorm_lookup :
    ∀ (ml : List PDFParseResult) (s : NormState)
      (_ : ∀ t y, y ∈ s.processed t ↔ ((s.maps t y).isSome = true))
      (t : StatementType) (y : Nat),
      (ml.foldl normStep s).maps t y =
        match s.maps t y with
        | some v => some v
        | none => (ml.find? (fun r => r.year == y)).map (fun r => r.stmt t) := by
  intro ml
  induction ml with
  | nil =>
    intro s _ t y
    simp only [List.foldl_nil, List.find?_nil]
    cases hs : s.maps t y <;> simp [hs]
  | cons r rest ih =>
    intro s hinv t y
    simp only [List.foldl_cons]
    rw [ih (normStep s r) (normStep_inv r hinv) t y]
    by_cases hcm : r.year ∈ s.processed t
    · have hmaps : (normStep s r).maps t y = s.maps t y := by
        simp [normStep, hcm]
      rw [hmaps]
      cases hs : s.maps t y with
      | some v => rfl
      | none =>
        have hry : r.year ≠ y := by
          intro hry
          have := (hinv t r.year).mp hcm
          rw [hry, hs] at this
          simp at this
        have hpr : (fun r : PDFParseResult => r.year == y) r = false := by
          simp [hry]
        simp [List.find?_cons, hpr]
    · have hnone : s.maps t r.year = none := by
        cases hs : s.maps t r.year with
        | none => rfl
        | some v =>
          exact absurd ((hinv t r.year).mpr (by simp [hs])) hcm
      by_cases hy : y = r.year
      · have hmaps : (normStep s r).maps t y = some (r.stmt t) := by
          simp [normStep, hcm, if_pos hy]
        have hsy : s.maps t y = none := by
          rw [hy]
          exact hnone
        have hpr : (fun r : PDFParseResult => r.year == y) r = true := by
          simp [hy]
        rw [hmaps, hsy]
        simp [List.find?_cons, hpr]
      · have hmaps : (normStep s r).maps t y = s.maps t y := by
          simp [normStep, hcm, hy]
        rw [hmaps]
        cases hs : s.maps t y with
        | some v => rfl
        | none =>
          have hpr : (fun r : PDFParseResult => r.year == y) r = false := by
            simp only [beq_eq_false_iff_ne, ne_eq]
            exact fun h => hy h.symm
          simp [List.find?_cons, hpr]

theorem normalize_lookup (l : List PDFParseResult) (t : StatementType) (y : Nat) :
    normalizeFinancialData l t y =
      ((sortKeyDesc (fun r => r.year) l).find? (fun r => r.year == y)).map
        (fun r => r.stmt t) := by
  unfold normalizeFinancialData
  rw [foldNorm_lookup _ _ (by intro t y; simp [List.contains]) t y]

theorem normalize_lookup_first (l : List PDFParseResult) (t : StatementType) (y : Nat) :
    normalizeFinancialData l t y =
      (l.find? (fun r => r.year == y)).map (fun r => r.stmt t) := by
  rw [normalize_lookup]
  rw [find?_sortKeyDesc (fun r => r.year) (fun r => r.year == y)
    (fun a b ha hb => by
      have ha2 : a.year = y := by simpa using ha
      have hb2 : b.year = y := by simpa using hb
      show a.year = b.year
      rw [ha2, hb2]) l]

/-! Invariants of the candidate filter loop. -/

theorem selectStep_inv {acc : List ReportLink} (l : Link)
    (h : (acc.map (fun r => r.year)).Nodup ∧ ∀ r ∈ acc, r.year ∈ targetYears) :
    ((selectStep acc l).map (fun r => r.year)).Nodup ∧
      ∀ r ∈ selectStep acc l, r.year ∈ targetYears := by
  obtain ⟨hnd, hmem⟩ := h
  unfold selectStep
  by_cases hann : isAnnualReport l.text l.href
  · simp only [hann, if_true]
    cases hex : extractYear l.text l.href with
    | none => exact ⟨hnd, hmem⟩
    | some year =>
      by_cases htg : targetYears.contains year = true
      · simp only [htg, if_true]
        by_cases hfind : (acc.find? (fun r => r.year = year)).isSome = true
        · simp only [hfind, if_true]
          exact ⟨hnd, hmem⟩
        · have hfind2 : (acc.find? (fun r => r.year = year)).isSome = false := by
            simpa using hfind
          simp only [hfind2, Bool.false_eq_true, if_false]
          have hnotin : year ∉ acc.map (fun r => r.year) := by
            intro hin
            obtain ⟨r, hr, hry⟩ := List.mem_map.mp hin
            have hfnone : acc.find? (fun r => r.year = year) = none :=
              Option.not_isSome_iff_eq_none.mp (by simpa using hfind)
            have := List.find?_eq_none.mp hfnone r hr
            simp [hry] at this
          constructor
          · rw [List.map_append]
            simp only [List.map_cons, List.map_nil]
            rw [List.nodup_append]
            refine ⟨hnd, List.nodup_singleton year, ?_⟩
            intro a ha hb
            simp only [List.mem_singleton] at hb
            subst hb
            exact hnotin ha
          · intro r hr
            rcases List.mem_append.mp hr with hr1 | hr2
            · exact hmem r hr1
            · simp only [List.mem_singleton] at hr2
              subst hr2
              simpa using htg
      · simp only [htg, if_false]
        exact ⟨hnd, hmem⟩
  · simp only [hann, if_false]
    exact ⟨hnd, hmem⟩

theorem selectFold_inv :
    ∀ (links : List Link) (acc : List ReportLink),
      ((acc.map (fun r => r.year)).Nodup ∧ ∀ r ∈ acc, r.year ∈ targetYears) →
      (((links.foldl selectStep acc).map (fun r => r.year)).Nodup ∧
        ∀ r ∈ links.foldl selectStep acc, r.year ∈ targetYears) := by
  intro links
  induction links with
  | nil => intro acc h; exact h
  | cons l ls ih =>
    intro acc h
    exact ih (selectStep acc l) (selectStep_inv l h)

/-! Invariant of the static-scrape loop. -/

theorem scrapeStaticStep_inv {resolve : String → String} {acc : List YearLink}
    (a : Link) (h : ∀ r ∈ acc, 2014 ≤ r.year ∧ r.year ≤ 2024) :
    ∀ r ∈ scrapeStaticStep resolve acc a, 2014 ≤ r.year ∧ r.year ≤ 2024 := by
  unfold scrapeStaticStep
  by_cases hpdf : (!(jsEndsWith (lowerStr a.href) ".pdf")) = true
  · simp only [hpdf, if_true]
    exact h
  · simp only [hpdf, if_false]
    by_cases hkw : (!(includeKeywordTest (lowerStr (a.text ++ " " ++ a.href))) ||
        excludeKeywordTest (lowerStr (a.text ++ " " ++ a.href))) = true
    · simp only [hkw, if_true]
      exact h
    · simp only [hkw, if_false]
      cases hym : jsFirstYearMatch (lowerStr (a.text ++ " " ++ a.href)) with
      | none => exact h
      | some year =>
        by_cases hrange : 2014 ≤ year ∧ year ≤ 2024
        · simp only [hrange, if_true]
          intro r hr
          rcases List.mem_append.mp hr with hr1 | hr2
          · exact h r hr1
          · simp only [List.mem_singleton] at hr2
            subst hr2
            exact hrange
        · simp only [hrange, if_false]
          exact h

theorem scrapeStaticFold_inv (resolve : String → String) :
    ∀ (anchors : List Link) (acc : List YearLink),
      (∀ r ∈ acc, 2014 ≤ r.year ∧ r.year ≤ 2024) →
      ∀ r ∈ anchors.foldl (scrapeStaticStep resolve) acc,
        2014 ≤ r.year ∧ r.year ≤ 2024 := by
  intro anchors
  induction anchors with
  | nil => intro acc h; exact h
  | cons a as ih =>
    intro acc h
    exact ih (scrapeStaticStep resolve acc a) (scrapeStaticStep_inv a h)

/-! `dropWhile` facts for the greedy brace slice. -/

theorem dropWhile_append_all {p : Char → Bool} :
    ∀ (l₁ l₂ : List Char), (∀ c ∈ l₁, p c = true) →
      List.dropWhile p (l₁ ++ l₂) = List.dropWhile p l₂ := by
  intro l₁ l₂ h
  induction l₁ with
  | nil => simp
  | cons c cs ih =>
    have hc : p c = true := h c (List.mem_cons_self c cs)
    simp only [List.cons_append, List.dropWhile_cons, hc, if_true]
    exact ih (fun x hx => h x (List.mem_cons_of_mem c hx))

theorem greedyBraceMatch_extract (pre obj post : List Char)
    (hpre : ∀ c ∈ pre, c ≠ lbrace)
    (hpost : ∀ c ∈ post, c ≠ lbrace ∧ c ≠ rbrace)
    (hhead : obj.head? = some lbrace)
    (hlast : obj.getLast? = some rbrace) :
    greedyBraceMatch (pre ++ obj ++ post) = some obj := by
  obtain ⟨ot, rfl⟩ : ∃ ot, obj = lbrace :: ot := by
    cases obj with
    | nil => simp at hhead
    | cons o1 ot =>
      simp only [List.head?_cons, Option.some.injEq] at hhead
      exact ⟨ot, by rw [hhead]⟩
  obtain ⟨rv, hrev⟩ : ∃ rv, (lbrace :: ot).reverse = rbrace :: rv := by
    have := List.head?_reverse (lbrace :: ot)
    rw [hlast] at this
    cases hr : (lbrace :: ot).reverse with
    | nil => simp [hr] at this
    | cons r1 rs =>
      rw [hr] at this
      simp only [List.head?_cons, Option.some.injEq] at this
      exact ⟨rs, by rw [this]⟩
  unfold greedyBraceMatch
  have hrest : List.dropWhile (fun c => c ≠ lbrace) ((pre ++ (lbrace :: ot)) ++ post) =
      (lbrace :: ot) ++ post := by
    rw [List.append_assoc]
    rw [dropWhile_append_all pre ((lbrace :: ot) ++ post)
      (fun c hc => by simp [hpre c hc])]
    simp [List.dropWhile_cons]
  rw [hrest]
  have hkept : List.dropWhile (fun c => c ≠ rbrace) (((lbrace :: ot) ++ post).reverse) =
      (lbrace :: ot).reverse := by
    rw [List.reverse_append]
    rw [dropWhile_append_all post.reverse (lbrace :: ot).reverse
      (fun c hc => by simp [(hpost c (List.mem_reverse.mp hc)).2])]
    rw [hrev]
    simp [List.dropWhile_cons]
  simp only [hkept, List.reverse_reverse]
  rfl

theorem jsonSliceOf_extract (pre obj post : String)
    (hpre : ∀ c ∈ pre.data, c ≠ lbrace)
    (hpost : ∀ c ∈ post.data, c ≠ lbrace ∧ c ≠ rbrace)
    (hhead : obj.data.head? = some lbrace)
    (hlast : obj.data.getLast? = some rbrace) :
    jsonSliceOf (pre ++ obj ++ post) = obj := by
  unfold jsonSliceOf
  have hd : (pre ++ obj ++ post).data = pre.data ++ obj.data ++ post.data := by
    simp
  rw [hd, greedyBraceMatch_extract pre.data obj.data post.data hpre hpost hhead hlast]

/-! ## Claim theorems -/

/-- Claim C3: the consolidator processes extractions in descending
fiscal-year order and writes the first result seen per (statement type,
year); a populated year is never overwritten, so every slot holds the
statements of the first extraction encountered for that year — both in
the descending processing order and in the input order (the sort is
stable). -/
theorem C3_consolidator_write_once (l : List PDFParseResult)
    (t : StatementType) (y : Nat) :
    normalizeFinancialData l t y =
      ((sortKeyDesc (fun r => r.year) l).find? (fun r => r.year == y)).map
        (fun r => r.stmt t) ∧
    normalizeFinancialData l t y =
      (l.find? (fun r => r.year == y)).map (fun r => r.stmt t) :=
  ⟨normalize_lookup l t y, normalize_lookup_first l t y⟩

/-- Claim C10: the three statement maps produced by
`normalizeFinancialData` always have identical year key sets: a year is
present in the income statement map iff it is present in the balance
sheet map iff it is present in the cash flow map. -/
theorem C10_statement_domains_agree (l : List PDFParseResult) (y : Nat) :
    ((normalizeFinancialData l StatementType.income_statement y).isSome ↔
      (normalizeFinancialData l StatementType.balance_sheet y).isSome) ∧
    ((normalizeFinancialData l StatementType.income_statement y).isSome ↔
      (normalizeFinancialData l StatementType.cash_flow y).isSome) := by
  constructor <;>
  · rw [normalize_lookup_first, normalize_lookup_first]
    cases l.find? (fun r => r.year == y) <;> simp

/-- Claim C6, counterexample: with two successfully parsed documents for
fiscal year 2020, `years_covered` contains the duplicate entry "2020"
twice — it is not the sorted *set* of covered years the claim demands. -/
theorem C6_counterexample :
    (consolidate c6Results).years_covered = ["2020", "2020"] ∧
    ¬ (consolidate c6Results).years_covered.Nodup := by
  refine ⟨rfl, ?_⟩
  rw [show (consolidate c6Results).years_covered = ["2020", "2020"] from rfl]
  decide

/-- Claim C6, amended: `years_covered` is the ascending-sorted list of the
years of all successful extractions with multiplicity (one entry per
parsed document, duplicates retained), and `total_files` counts the parse
results. -/
theorem C6_metadata_amended (l : List PDFParseResult) :
    (consolidate l).years_covered.Perm (l.map (fun r => Nat.repr r.year)) ∧
    (consolidate l).years_covered.Pairwise (fun a b => a ≤ b) ∧
    (consolidate l).total_files = l.length :=
  ⟨perm_sortStrAsc _, sortStrAsc_sorted _, rfl⟩

/-- Claim C7, counterexample: the code inspects only the *first* 20xx
token ("2013 2020 Annual Report" is discarded although 2020 is in the
window), and it accepts 2014, which lies outside
`[currentYear - 9, currentYear] = [2015, 2024]`. -/
theorem C7_counterexample :
    extractYear c7Text "a.pdf" = none ∧
    claimExtractYear c7Text "a.pdf" = some 2020 ∧
    extractYear "2014 Annual Report" "a.pdf" = some 2014 ∧
    claimExtractYear "2014 Annual Report" "a.pdf" = none :=
  ⟨rfl, rfl, rfl, rfl⟩

/-- Claim C7, amended: the assigned year is the *first* `20[0-9]{2}` token
of text-plus-URL (file name alone for `extractYearFromFilename`), accepted
only when it lies in the fixed window `[2014, 2024]`; if the first token is
out of that window the candidate is discarded even when a later token is
inside it. -/
theorem C7_year_extraction_amended (text href filename : String) :
    extractYear text href =
      ((yearTokens none (text ++ " " ++ href).data).head?).bind
        (fun y => if 2014 ≤ y ∧ y ≤ 2024 then some y else none) ∧
    extractYearFromFilename filename =
      ((yearTokens none filename.data).head?).bind
        (fun y => if 2014 ≤ y ∧ y ≤ 2024 then some y else none) := by
  constructor
  · unfold extractYear jsFirstYearMatch
    rw [firstYearToken_eq_head]
    cases (yearTokens none (text ++ " " ++ href).data).head? <;> rfl
  · unfold extractYearFromFilename jsFirstYearMatch
    rw [firstYearToken_eq_head]
    cases (yearTokens none filename.data).head? <;> rfl

/-- Claim C1, counterexample: the static scraper retains two candidates
for fiscal year 2020 — retained candidates do not have pairwise-distinct
years. -/
theorem C1_counterexample :
    ((scrapeStatic (fun h => h) c1Anchors).map (fun r => r.year) = [2020, 2020]) ∧
    ¬ ((scrapeStatic (fun h => h) c1Anchors).map (fun r => r.year)).Nodup := by
  refine ⟨rfl, ?_⟩
  rw [show (scrapeStatic (fun h => h) c1Anchors).map (fun r => r.year) = [2020, 2020]
    from rfl]
  decide

/-- Claim C1, amended: the puppeteer downloader loop
(`selectValidReports`) yields pairwise-distinct years, descending order,
length at most 10, years within `[2015, 2024]`; the static scraper
(`scrapeStatic`) yields descending order, length at most 10 and years
within the wider fixed window `[2014, 2024]`, but may retain several
candidates for one year. -/
theorem C1_discovery_wellformed_amended :
    (∀ links : List Link,
      ((selectValidReports links).map (fun r => r.year)).Nodup ∧
      (selectValidReports links).Pairwise (fun a b => b.year ≤ a.year) ∧
      (selectValidReports links).length ≤ 10 ∧
      ∀ r ∈ selectValidReports links, 2015 ≤ r.year ∧ r.year ≤ 2024) ∧
    (∀ (resolve : String → String) (anchors : List Link),
      (scrapeStatic resolve anchors).Pairwise (fun a b => b.year ≤ a.year) ∧
      (scrapeStatic resolve anchors).length ≤ 10 ∧
      ∀ r ∈ scrapeStatic resolve anchors, 2014 ≤ r.year ∧ r.year ≤ 2024) := by
  constructor
  · intro links
    obtain ⟨hnd, hmem⟩ := selectFold_inv links [] (by simp)
    have hperm : (selectValidReports links).Perm (links.foldl selectStep []) :=
      perm_sortKeyDesc _ _
    refine ⟨?_, sortKeyDesc_sorted _ _, ?_, ?_⟩
    · exact ((hperm.map (fun r => r.year)).nodup_iff).mpr hnd
    · have hlen : (selectValidReports links).length =
        (links.foldl selectStep []).length := hperm.length_eq
      have hle : ((links.foldl selectStep []).map (fun r => r.year)).length ≤
          targetYears.length :=
        length_le_of_nodup_mem hnd (by
          intro x hx
          obtain ⟨r, hr, rfl⟩ := List.mem_map.mp hx
          exact hmem r hr)
      have htf : targetYears.length = 10 := by decide
      have hlm : ((links.foldl selectStep []).map (fun r => r.year)).length =
        (links.foldl selectStep []).length := List.length_map _ _
      omega
    · intro r hr
      have hr2 : r ∈ links.foldl selectStep [] := hperm.mem_iff.mp hr
      have h10 : ∀ y ∈ targetYears, 2015 ≤ y ∧ y ≤ 2024 := by decide
      exact h10 _ (hmem r hr2)
  · intro resolve anchors
    have hinv := scrapeStaticFold_inv resolve anchors [] (by simp)
    refine ⟨?_, ?_, ?_⟩
    · exact List.Pairwise.sublist (List.take_sublist 10 _) (sortKeyDesc_sorted _ _)
    · exact List.length_take_le _ _
    · intro r hr
      have hr2 : r ∈ sortKeyDesc (fun r => r.year)
          (anchors.foldl (scrapeStaticStep resolve) []) :=
        List.take_subset 10 _ hr
      exact hinv r ((perm_sortKeyDesc _ _).mem_iff.mp hr2)

/-- Claim C1, witness: the amended theorem applied to one concrete link,
discharging the membership hypothesis on the retained candidate. -/
theorem C1_witness :
    2015 ≤ (ReportLink.mk "Annual Report 2020" "r1.pdf" 2020).year ∧
    (ReportLink.mk "Annual Report 2020" "r1.pdf" 2020).year ≤ 2024 := by
  refine (C1_discovery_wellformed_amended.1 [c1GoodLink]).2.2.2
    (ReportLink.mk "Annual Report 2020" "r1.pdf" 2020) ?_
  rw [show selectValidReports [c1GoodLink] =
    [ReportLink.mk "Annual Report 2020" "r1.pdf" 2020] from rfl]
  exact List.mem_singleton.mpr rfl

/-- Claim C2, counterexample: "Form 10-K Presentation 2020" carries the
exclude keyword "presentation", so the claimed accept-iff-include-and-
not-exclude rule rejects it, but the code's filing-form shortcut accepts
it without consulting the exclude list. -/
theorem C2_counterexample :
    isAnnualReport c2Text c2Href = true ∧
    claimClassifierAccepts c2Text c2Href = false :=
  ⟨rfl, rfl⟩

/-- Claim C2, amended: a 20-F/10-K form code in the display text (URL not
consulted) short-circuits classification to the amendment check alone —
exclude keywords are not consulted; otherwise a link is accepted iff an
include keyword matches text or URL (or a 20xx year token appears together
with the word "annual") and no exclude keyword matches. -/
theorem C2_classifier_amended (text href : String) :
    isAnnualReport text href = classifierAmended text href := by
  have hsub1 : jsIncludes "form 20-f" "20-f" = true := by decide
  have hsub2 : jsIncludes "form 10-k" "10-k" = true := by decide
  have hsub3 : jsIncludes "form 20-f/a" "/a" = true := by decide
  have hsub4 : jsIncludes "form 10-k/a" "/a" = true := by decide
  have h20 : (jsIncludes (lowerStr text) "form 20-f" ||
      jsIncludes (lowerStr text) "20-f") = jsIncludes (lowerStr text) "20-f" := by
    cases hf : jsIncludes (lowerStr text) "form 20-f"
    · simp
    · simp [jsIncludes_trans hf hsub1]
  have h10 : (jsIncludes (lowerStr text) "form 10-k" ||
      jsIncludes (lowerStr text) "10-k") = jsIncludes (lowerStr text) "10-k" := by
    cases hf : jsIncludes (lowerStr text) "form 10-k"
    · simp
    · simp [jsIncludes_trans hf hsub2]
  have hAm : (jsIncludes (lowerStr text) "amendment" ||
      jsIncludes (lowerStr text) "/a" ||
      jsIncludes (lowerStr text) "form 20-f/a" ||
      jsIncludes (lowerStr text) "form 10-k/a") =
      (jsIncludes (lowerStr text) "amendment" || jsIncludes (lowerStr text) "/a") := by
    cases hc : jsIncludes (lowerStr text) "form 20-f/a"
    · cases hd : jsIncludes (lowerStr text) "form 10-k/a"
      · simp
      · simp [jsIncludes_trans hd hsub4]
    · simp [jsIncludes_trans hc hsub3]
  simp only [isAnnualReport, classifierAmended]
  rw [h20, h10, hAm]

set_option maxRecDepth 20000 in
/-- Claim C5, counterexample: a response whose valid object is followed by
prose containing a second braced fragment; the claimed first-balanced-
object rule parses it successfully, but the code greedy
first-to-last-brace slice is unparseable and the year is skipped. -/
theorem C5_counterexample :
    adaptResponse c5DemoResp = none ∧
    claimAdaptResponse c5DemoResp = some c5Triple :=
  ⟨rfl, rfl⟩

/-- Claim C5, amended: the adapter slices from the first `{` to the last
`}` of the response (the greedy regex), so prose before the object and
brace-free prose after it are tolerated and do not change the result; a
parsed object lacking any of the three required top-level keys is a
per-year skip (`none`), never a thrown error. -/
theorem C5_adapter_amended :
    (∀ (pre obj post : String),
      (∀ c ∈ pre.data, c ≠ lbrace) →
      (∀ c ∈ post.data, c ≠ lbrace ∧ c ≠ rbrace) →
      obj.data.head? = some lbrace →
      obj.data.getLast? = some rbrace →
      jsonSliceOf (pre ++ obj ++ post) = obj ∧
      adaptResponse (pre ++ obj ++ post) = adaptResponse obj) ∧
    (∀ (resp : String) (j : Json),
      jsonParseFull (jsonSliceOf resp) = some j →
      (getField j "income_statement" = none ∨ getField j "balance_sheet" = none ∨
        getField j "cash_flow" = none) →
      adaptResponse resp = none) := by
  constructor
  · intro pre obj post h1 h2 h3 h4
    have hs := jsonSliceOf_extract pre obj post h1 h2 h3 h4
    have hobj : jsonSliceOf obj = obj := by
      have h := jsonSliceOf_extract "" obj "" (by simp) (by simp) h3 h4
      simpa using h
    refine ⟨hs, ?_⟩
    simp only [adaptResponse]
    rw [hs, hobj]
  · intro resp j hparse hmiss
    simp only [adaptResponse]
    rw [hparse]
    cases h1 : truthyField j "income_statement" with
    | none => simp [h1]
    | some v1 =>
      cases h2 : truthyField j "balance_sheet" with
      | none => simp [h1, h2]
      | some v2 =>
        cases h3 : truthyField j "cash_flow" with
        | none => simp [h1, h2, h3]
        | some v3 =>
          exfalso
          rcases hmiss with h | h | h
          · simp [truthyField, h] at h1
          · simp [truthyField, h] at h2
          · simp [truthyField, h] at h3

set_option maxRecDepth 20000 in
/-- Claim C5, witness: the amended theorem applied to a concrete response
with prose on both sides of the object. -/
theorem C5_witness :
    jsonSliceOf ("Here is the JSON: " ++ goodJsonObj ++ " Done.") = goodJsonObj ∧
    adaptResponse ("Here is the JSON: " ++ goodJsonObj ++ " Done.") =
      adaptResponse goodJsonObj :=
  C5_adapter_amended.1 "Here is the JSON: " goodJsonObj " Done."
    (by decide) (by decide) (by decide) (by decide)

theorem jsOrNA_ne_empty (v : Option String) : jsOrNA v ≠ "" := by
  cases v with
  | none => decide
  | some s =>
    simp only [jsOrNA]
    by_cases h : s.data.isEmpty = true
    · simp only [h, if_true]
      decide
    · simp only [h, if_false]
      intro he
      subst he
      simp at h

theorem jsOrNA_none : jsOrNA none = "N/A" := rfl

/-- Claim C8: in both exporters a cell whose (statement, item, year)
combination has no value in the consolidated data holds exactly "N/A" —
never the empty string and never "0"; in particular a fiscal year with no
statement map at all (a failed extraction year, present as a column via
another company in the comparative export) renders as "N/A" for every
item, and every cell of the generated row grid is nonempty. -/
theorem C8_missing_cells (d : PFS) (t : StatementType) (year item : String)
    (companyData : String → Option PFS) (company : String) :
    csvCell d t year item ≠ "" ∧
    ((d.statements t year).bind (fun m => lookupItem m item) = none →
      csvCell d t year item = "N/A") ∧
    (d.statements t year = none → csvCell d t year item = "N/A") ∧
    comparativeCell companyData company t year item ≠ "" ∧
    (companyData company = none →
      comparativeCell companyData company t year item = "N/A") ∧
    (∀ d2, companyData company = some d2 → d2.statements t year = none →
      comparativeCell companyData company t year item = "N/A") ∧
    ("N/A" : String) ≠ "0" ∧
    (∀ row ∈ generateCSVRows d, ∀ cell ∈ row.2.2, cell ≠ "") := by
  refine ⟨?_, ?_, ?_, ?_, ?_, ?_, by decide, ?_⟩
  · exact jsOrNA_ne_empty _
  · intro h
    unfold csvCell
    rw [h]
    rfl
  · intro h
    unfold csvCell
    rw [h]
    rfl
  · unfold comparativeCell
    cases companyData company with
    | none =>
      show ("N/A" : String) ≠ ""
      decide
    | some d2 => exact jsOrNA_ne_empty _
  · intro h
    unfold comparativeCell
    rw [h]
  · intro d2 h hs
    unfold comparativeCell
    rw [h]
    show csvCell d2 t year item = "N/A"
    unfold csvCell
    rw [hs]
    rfl
  · intro row hrow cell hcell
    unfold generateCSVRows at hrow
    obtain ⟨t2, _, hrow2⟩ := List.mem_flatMap.mp hrow
    obtain ⟨item2, _, hrow3⟩ := List.mem_map.mp hrow2
    subst hrow3
    obtain ⟨y2, _, hcell2⟩ := List.mem_map.mp hcell
    subst hcell2
    exact jsOrNA_ne_empty _

/-- Claim C8, witness: on a record covering only 2018, the present cell
renders its value and a missing year renders "N/A". -/
theorem C8_witness :
    csvCell c8Demo StatementType.income_statement "2019" "Revenue" = "N/A" ∧
    csvCell c8Demo StatementType.income_statement "2018" "Revenue" = "100" := by
  constructor
  · exact (C8_missing_cells c8Demo StatementType.income_statement "2019" "Revenue"
      (fun _ => none) "x").2.2.1 rfl
  · rfl

set_option maxRecDepth 40000 in
/-- Claim C4 (code bug evidence): an authentication failure of the
extraction service is swallowed by the catch-all in `parsePDFWithAI` —
the year is skipped, the run continues to the remaining documents, and an
all-authentication-failure run ends in the generic `noParsedFiles` error
instead of a terminal authentication signal. -/
theorem C4_auth_failure_swallowed :
    (∀ (pdfText : Option String) (year : Nat) (filename : String),
      parsePDFWithAI pdfText (AIOutcome.failure AIFailure.authentication)
        year filename = none) ∧
    yearsOf (parseFinancialStatementsRun [c4AuthDoc, c4GoodDoc]) = some ["2021"] ∧
    parseFinancialStatementsRun [c4AuthDoc] = Except.error RunError.noParsedFiles := by
  refine ⟨?_, rfl, rfl⟩
  intro pdfText year filename
  cases pdfText with
  | none => rfl
  | some t =>
    unfold parsePDFWithAI
    by_cases h : t.length < 1000
    · simp [h]
    · simp [h]

theorem pupMain_result_close (env : PupEnv) (resolveAt : String → String → String)
    (irUrl : String) :
    ∀ (o : Option (List String)) (reports : List YearLink),
      (pupMain env resolveAt irUrl o).result = some reports →
      (pupMain env resolveAt irUrl o).browserOpen = false := by
  intro o reports h
  cases o with
  | none => simp [pupMain] at h
  | some hrefs =>
    simp only [pupMain] at h ⊢
    cases h4 : pupYearLoop env resolveAt irUrl
        (dedupFirst (hrefs.filter (fun s => hasAnnualReportYearPath s.data))) [] with
    | none =>
      rw [h4] at h
      simp [pupFinish] at h
    | some reports2 => rfl

/-- Claim C9 (code bug evidence): `scrapeAndDownloadReports` releases the
browser on every exit path (its `try/finally`), and a successful
`scrapeWithPuppeteer` run closes its browser, but when the initial
navigation of `scrapeWithPuppeteer` times out the function terminates
with the browser it launched still open — the close call is only on the
straight-line path. -/
theorem C9_browser_release :
    (scrapeWithPuppeteer c9Env (fun _ h => h) "https://example.com/ir").browserOpen
        = true ∧
    (scrapeWithPuppeteer c9Env (fun _ h => h) "https://example.com/ir").result
        = none ∧
    (scrapeWithPuppeteer c9GoodEnv (fun _ h => h) "https://example.com/ir").result
        = some [] ∧
    (scrapeWithPuppeteer c9GoodEnv (fun _ h => h) "https://example.com/ir").browserOpen
        = false ∧
    (∀ (nav1 nav2 : Bool) (body : Except Unit (List String)),
      (scrapeAndDownloadReportsLifecycle nav1 nav2 body).2 = false) :=
  ⟨rfl, rfl, rfl, rfl, fun _ _ _ => rfl⟩

end EquityReport
